import Mathlib

/-!
Verification of the forge repository's patch engine, context store,
attachment pipeline and tool registry against its specification.

Strings of the Rust source are modelled as `List Char`; Rust byte indices
into a `String` are recovered through the UTF-8 size of each character
(`Char.utf8Size`).  A byte-wise substring match of one valid UTF-8 string
inside another always begins at a character boundary (UTF-8 is
self-synchronizing: the first byte of the needle is an ASCII byte or a lead
byte, and such bytes occur in the haystack only at boundaries), so searching
at character granularity while tracking byte offsets is faithful to Rust's
`str::find`.
-/

namespace Forge

/-- Decidable equality for `Except`, used to evaluate the modelled
`Result`-returning operations on concrete inputs. -/
instance {ε α : Type} [DecidableEq ε] [DecidableEq α] :
    DecidableEq (Except ε α) := fun x y =>
  match x, y with
  | .ok a, .ok b =>
      if h : a = b then isTrue (by rw [h]) else isFalse (by simp [h])
  | .error e, .error f =>
      if h : e = f then isTrue (by rw [h]) else isFalse (by simp [h])
  | .ok _, .error _ => isFalse (by simp)
  | .error _, .ok _ => isFalse (by simp)

/-! ## Patch engine (src/crates/forge_app/src/tools/patch/apply.rs) -/

/-- A search/replace block, input to the patch engine
(`PatchBlock { search, replace }`). -/
structure PatchBlock where
  search : List Char
  replace : List Char
deriving DecidableEq, Repr

/-- Byte length of a string, as Rust's `str::len`. -/
def utf8Len (s : List Char) : Nat :=
  s.foldl (fun n c => n + c.utf8Size) 0

/-- Rust `char_indices`: every character paired with its byte offset.
The offset equal to the total byte length is *not* produced. -/
def charIndices (s : List Char) (acc : Nat := 0) : List (Nat × Char) :=
  match s with
  | [] => []
  | c :: rest => (acc, c) :: charIndices rest (acc + c.utf8Size)

/-- Rust `str::find` for a pattern string: byte offset of the first
occurrence of `needle` in `hay`, starting the scan at byte offset `acc`. -/
def findSub (hay needle : List Char) (acc : Nat := 0) : Option Nat :=
  match hay with
  | [] => if needle.isEmpty then some acc else none
  | c :: rest =>
      if needle.isPrefixOf (c :: rest) then some acc
      else findSub rest needle (acc + c.utf8Size)

/-- `get_utf8_safe_indices`: both byte offsets must appear in
`char_indices`; note the source never yields the end-of-string offset, so a
`byte_end` equal to the byte length of `s` is always rejected. -/
def get_utf8_safe_indices (s : List Char) (byte_start byte_end : Nat) :
    Option (Nat × Nat) := do
  let start ← ((charIndices s).find? (fun p => p.1 = byte_start)).map (·.1)
  let stop ← ((charIndices s).find? (fun p => p.1 = byte_end)).map (·.1)
  pure (start, stop)

/-- Characters of `s` occupying bytes `[0, n)` (`n` assumed to land on a
character boundary, as guaranteed by `get_utf8_safe_indices`). -/
def takeBytes (s : List Char) (n : Nat) : List Char :=
  match s with
  | [] => []
  | c :: rest => if n = 0 then [] else c :: takeBytes rest (n - c.utf8Size)

/-- Characters of `s` from byte offset `n` on. -/
def dropBytes (s : List Char) (n : Nat) : List Char :=
  match s with
  | [] => []
  | c :: rest => if n = 0 then c :: rest else dropBytes rest (n - c.utf8Size)

/-- Rust `String::replace_range`. -/
def replace_range (content : List Char) (start stop : Nat)
    (replacement : List Char) : List Char :=
  takeBytes content start ++ replacement ++ dropBytes content stop

/-- `safe_replace_range`: replaces only if `get_utf8_safe_indices`
accepts the span, otherwise leaves the content untouched. -/
def safe_replace_range (content : List Char) (start stop : Nat)
    (replacement : List Char) : List Char :=
  match get_utf8_safe_indices content start stop with
  | some (s, e) => replace_range content s e replacement
  | none => content

/-- One iteration of the block loop inside `apply_patches`. -/
def applyBlock (content : List Char) (block : PatchBlock) : List Char :=
  if block.search.isEmpty then content ++ block.replace
  else
    match findSub content block.search with
    | some start_idx =>
        safe_replace_range content start_idx
          (start_idx + utf8Len block.search) block.replace
    | none => content

/-- The patch engine's error type (`enum Error`). `fileOperation` carries
the rendered io cause. -/
inductive PatchError where
  | fileNotFound (path : String)
  | fileOperation (cause : String)
deriving DecidableEq, Repr

/-- `apply_patches`: fold the blocks left to right over the content.  The
Rust body has no fallible step, so the `Result` is always `Ok`. -/
def apply_patches (content : List Char) (blocks : List PatchBlock) :
    Except PatchError (List Char) :=
  .ok (blocks.foldl applyBlock content)

/-- Whether `needle` occurs byte-wise in `hay` (`findSub` succeeds). -/
def occursIn (needle hay : List Char) : Bool :=
  (findSub hay needle).isSome

/-! ## Context store (src/crates/forge_domain/src/context.rs) -/

/-- Message roles (`enum Role`). -/
inductive Role where
  | system
  | user
  | assistant
deriving DecidableEq, Repr

/-- A tool call attached to an assistant message (`ToolCallFull`).  Its own
fields play no role in the operations modelled here; only its identity is
needed, so it is kept as an opaque payload. -/
structure ToolCallFull where
  payload : String
deriving DecidableEq, Repr

/-- A tool result message (`ToolResult`).  As with `ToolCallFull`, only the
variant identity matters for the modelled operations. -/
structure ToolResult where
  payload : String
deriving DecidableEq, Repr

/-- `ContentMessage { role, content, tool_calls }`. -/
structure ContentMessage where
  role : Role
  content : String
  tool_calls : Option (List ToolCallFull)
deriving DecidableEq, Repr

/-- `enum ContextMessage`. -/
inductive ContextMessage where
  | contentMessage (m : ContentMessage)
  | toolMessage (r : ToolResult)
  | image (url : String)
deriving DecidableEq, Repr

/-- `ContextMessage::system(content)`. -/
def ContextMessage.system (content : String) : ContextMessage :=
  .contentMessage ⟨Role.system, content, none⟩

/-- The per-agent context.  The source's `Context` also carries `tools`,
`tool_choice`, `max_tokens` and `temperature`; `set_first_system_message`
never touches them, so only the message log is modelled. -/
structure Context where
  messages : List ContextMessage
deriving DecidableEq, Repr

/-- `Context::set_first_system_message`: on an empty log, push a system
message; when the leading message is a `ContentMessage`, overwrite its
content if its role is `System`, otherwise insert a system message at index
0; when the leading message is a tool result or an image, the `if let`
pattern fails and the context is returned unchanged. -/
def set_first_system_message (c : Context) (content : String) : Context :=
  match c.messages with
  | [] => ⟨[ContextMessage.system content]⟩
  | .contentMessage cm :: rest =>
      if cm.role = Role.system then
        ⟨.contentMessage { cm with content := content } :: rest⟩
      else
        ⟨ContextMessage.system content :: .contentMessage cm :: rest⟩
  | msgs@(.toolMessage _ :: _) => ⟨msgs⟩
  | msgs@(.image _ :: _) => ⟨msgs⟩

/-- Whether the log begins with a system-role content message. -/
def startsWithSystem (msgs : List ContextMessage) : Bool :=
  match msgs with
  | .contentMessage cm :: _ => cm.role = Role.system
  | _ => false

/-- Whether the log begins with *two* system-role content messages. -/
def twoLeadingSystem (msgs : List ContextMessage) : Bool :=
  match msgs with
  | .contentMessage a :: .contentMessage b :: _ =>
      a.role = Role.system ∧ b.role = Role.system
  | _ => false

/-- Whether a message is the `ContentMessage` variant. -/
def ContextMessage.isContent : ContextMessage → Bool
  | .contentMessage _ => true
  | _ => false

/-- The content of the leading system message, when there is one. -/
def leadingSystemContent (msgs : List ContextMessage) : Option String :=
  match msgs with
  | .contentMessage cm :: _ =>
      if cm.role = Role.system then some cm.content else none
  | _ => none

/-! ## Attachments (src/crates/forge_app/src/attachment.rs) -/

/-- Modelled from the spec: the image kinds carried by `ContentType::Image`
(`ImageType`, whose forge_domain module is not under src).  The spec's
attachment entity is `Image { path, base64, mime }` with mime values such
as `image/png`; the source test exercises variants `Png` and `Jpeg`. -/
inductive ImageType where
  | png
  | jpeg
  | webp
  | gif
deriving DecidableEq, Repr

/-- Modelled from the spec: `ImageType::from_str` on a file extension
(the forge_domain attachment module is not under src).  The spec classifies
extensions png, jpg, jpeg, webp, gif as image types; jpg and jpeg share the
jpeg type, all other extensions fail to parse. -/
def ImageType.fromStr (e : List Char) : Option ImageType :=
  if e = "png".data then some .png
  else if e = "jpg".data then some .jpeg
  else if e = "jpeg".data then some .jpeg
  else if e = "webp".data then some .webp
  else if e = "gif".data then some .gif
  else none

/-- `enum ContentType` of an attachment. -/
inductive ContentType where
  | text
  | image (t : ImageType)
deriving DecidableEq, Repr

/-- Whether a content type is the text variant. -/
def ContentType.isText : ContentType → Bool
  | .text => true
  | .image _ => false

/-- `Attachment { content, path, content_type }`. -/
structure Attachment where
  content : List Char
  path : List Char
  content_type : ContentType
deriving DecidableEq, Repr

/-- UTF-8 encoding of one character, the byte sequence Rust hands to the
base64 encoder. -/
def utf8Bytes (c : Char) : List Nat :=
  let n := c.toNat
  if n < 0x80 then [n]
  else if n < 0x800 then [0xC0 + n / 0x40, 0x80 + n % 0x40]
  else if n < 0x10000 then
    [0xE0 + n / 0x1000, 0x80 + n / 0x40 % 0x40, 0x80 + n % 0x40]
  else
    [0xF0 + n / 0x40000, 0x80 + n / 0x1000 % 0x40,
     0x80 + n / 0x40 % 0x40, 0x80 + n % 0x40]

/-- The byte content of a string, as Rust sees it. -/
def strBytes (s : List Char) : List Nat :=
  s.foldr (fun c acc => utf8Bytes c ++ acc) []

/-- The standard base64 alphabet. -/
def b64Alphabet : List Char :=
  "ABCDEFGHIJKLMNOPQRSTUVWXYZabcdefghijklmnopqrstuvwxyz0123456789+/".toList

/-- Digit of the standard base64 alphabet. -/
def b64Digit (n : Nat) : Char := b64Alphabet.getD n '='

/-- Modelled from the spec: the external base64 encoder
(`base64::engine::general_purpose::STANDARD.encode`, a crate the spec lists
as an external collaborator).  Standard alphabet, `=` padding. -/
def base64Encode : List Nat → List Char
  | [] => []
  | [a] => [b64Digit (a / 4), b64Digit (a % 4 * 16), '=', '=']
  | [a, b] =>
      [b64Digit (a / 4), b64Digit (a % 4 * 16 + b / 16),
        b64Digit (b % 16 * 4), '=']
  | a :: b :: c :: rest =>
      [b64Digit (a / 4), b64Digit (a % 4 * 16 + b / 16),
        b64Digit (b % 16 * 4 + c / 64), b64Digit (c % 64)] ++ base64Encode rest

/-- Rust `Path::file_name` for the attachment paths of interest: the last
non-empty `/`-separated component. -/
def lastComponent (p : List Char) : List Char :=
  ((p.splitOn '/').filter (fun s => s ≠ [])).getLastD []

/-- Rust `Path::extension`: the part of the file name after its last `.`,
none when there is no `.` or when the only `.` is the leading one. -/
def extensionOf (p : List Char) : Option (List Char) :=
  let parts := (lastComponent p).splitOn '.'
  match parts with
  | [] => none
  | [_] => none
  | first :: _ :: _ =>
      if first = [] ∧ parts.length = 2 then none
      else some (parts.getLastD [])

/-- A file-read service: the infrastructure dependency
`FileReadService::read`, `none` standing for any read error. -/
def FileRead := List Char → Option (List Char)

/-- `ForgeChatRequest::populate_attachments`: read the file; when its
extension parses as an image type, produce an image attachment whose
content is the base64 of the raw bytes, otherwise a text attachment
carrying the content verbatim.  A read failure is an error, which
`prepare_attachments` later discards. -/
def populate_attachments (fs : FileRead) (p : List Char) : Option Attachment :=
  match fs p with
  | none => none
  | some read =>
      match (extensionOf p).bind ImageType.fromStr with
      | some t =>
          some ⟨base64Encode (strBytes read), p, ContentType.image t⟩
      | none => some ⟨read, p, ContentType.text⟩

/-- Insertion into the `HashSet<Attachment>`, modelled as a duplicate-free
list in arrival order. -/
def insertAtt (l : List Attachment) (a : Attachment) : List Attachment :=
  if a ∈ l then l else l ++ [a]

/-- `ForgeChatRequest::prepare_attachments`: populate every path, keep the
successes, collect into a set. -/
def prepare_attachments (fs : FileRead) (paths : List (List Char)) :
    List Attachment :=
  (paths.filterMap (populate_attachments fs)).foldl insertAtt []

/-- The `<file path="…">…</file>` wrapper used when inlining a text
attachment. -/
def fileXml (path content : List Char) : List Char :=
  "<file path=\"".data ++ path ++ "\">".data ++ content ++ "</file>".data

/-- `ForgeChatRequest::prepare_message`: append the XML of every text
attachment to the message and remove it from the set; image attachments
stay. -/
def prepare_message (message : List Char) (atts : List Attachment) :
    List Char × List Attachment :=
  (atts.foldl
      (fun m a => if a.content_type.isText then m ++ fileXml a.path a.content
        else m)
      message,
   atts.filter (fun a => !a.content_type.isText))

/-- The `@`-prefixed words of a chat message
(`chat.split(" ")` filtered through `strip` of the leading `@`). -/
def wordsOf (chat : List Char) : List (List Char) :=
  (chat.splitOn ' ').filterMap
    (fun w => match w with | '@' :: rest => some rest | _ => none)

/-- The attachment pipeline on an explicit word list. -/
def attachmentsWith (fs : FileRead) (chat : List Char)
    (ws : List (List Char)) : List Char × List Attachment :=
  prepare_message chat (prepare_attachments fs ws)

/-- `AttachmentService::attachments` for `ForgeChatRequest`.  The Rust
signature is fallible but the body has no failing step, hence always
`Ok`. -/
def attachments (fs : FileRead) (chat : List Char) :
    Except String (List Char × List Attachment) :=
  .ok (attachmentsWith fs chat (wordsOf chat))

/-! ## Tool calls and path validation
(src/crates/forge_app/src/tools/patch/apply.rs,
src/crates/forge_tool/src/fs/fs_read.rs) -/

/-- Modelled from the spec: `assert_absolute_path`
(crate::tools::utils is not under src).  Unix `Path::is_absolute` — the
path starts at the root; the source test demands the rejection message
`Path must be absolute`. -/
def isAbsolutePath (p : List Char) : Bool :=
  match p with
  | '/' :: _ => true
  | _ => false

/-- The failure cases of `ApplyPatch::call`. -/
inductive ToolError where
  | pathNotAbsolute
  | fileNotFound (path : List Char)
deriving DecidableEq, Repr

/-- `ApplyPatch::call` (fs_patch): reject non-absolute paths, then missing
files, then apply the parsed blocks to the file content; the new content is
what gets written back.  Block parsing and output formatting are not part
of the modelled claims, so the blocks arrive pre-parsed and the written
content is returned. -/
def applyPatchCall (fs : FileRead) (path : List Char)
    (blocks : List PatchBlock) : Except ToolError (List Char) :=
  if isAbsolutePath path = false then .error .pathNotAbsolute
  else
    match fs path with
    | none => .error (.fileNotFound path)
    | some content =>
        match apply_patches content blocks with
        | .ok out => .ok out
        | .error _ => .error (.fileNotFound path)

/-- `FSRead::call` of forge_tool (`read_file`): read the path as given —
there is no absoluteness check — and stringify any io error. -/
def fsReadCall (fs : FileRead) (path : List Char) :
    Except (List Char) (List Char) :=
  match fs path with
  | some content => .ok content
  | none => .error ("No such file or directory: ".data ++ path)

/-! ## Tool registry (src/crates/forge_app/src/tools/mod.rs) -/

/-- Modelled from the spec: the literal block markers `<<<<<<< SEARCH`,
`=======` and `>>>>>>> REPLACE` (the `marker` module is not under src). -/
def SEARCH : String := "<<<<<<< SEARCH"

/-- Modelled from the spec: the divider marker. -/
def DIVIDER : String := "======="

/-- Modelled from the spec: the replace marker. -/
def REPLACE : String := ">>>>>>> REPLACE"

/-- The untrimmed `format!` output of `ApplyPatch::description`: the raw
string of the source with the three markers substituted.  The raw literal
begins directly with `Replace sections…` and ends with a newline and the
eight spaces of the closing quote's indentation. -/
def applyPatchDescriptionRaw : String :=
  "Replace sections in a file using multiple SEARCH/REPLACE blocks. Example:\n"
  ++ SEARCH ++ "\n[exact content to find]\n" ++ DIVIDER
  ++ "\n[new content to replace with]\n" ++ REPLACE ++ "\n\nRules:\n"
  ++ "1. SEARCH must exactly match whitespace, indentation & line endings\n"
  ++ "2. Each block replaces first match only\n"
  ++ "3. Keep blocks minimal - include only changing lines plus needed context\n"
  ++ "4. Provide complete lines only - no truncation\n"
  ++ "5. Use multiple blocks for multiple changes in the same file\n"
  ++ "6. For moves: use 2 blocks (delete block + insert block)\n"
  ++ "7. For deletes: use empty REPLACE section\n\n"
  ++ "Example with multiple blocks:\n"
  ++ SEARCH ++ "\ndef old_function(x):\n    return x + 1\n" ++ DIVIDER
  ++ "\ndef new_function(x, y=0):\n    return x + y\n" ++ REPLACE ++ "\n"
  ++ SEARCH ++ "\n# Old comment\n" ++ DIVIDER
  ++ "\n# Updated documentation - now supports multiple parameters\n"
  ++ REPLACE ++ "\n        "

/-- Rust `str::trim`: drop whitespace characters from both ends. -/
def trimChars (s : List Char) : List Char :=
  ((s.dropWhile Char.isWhitespace).reverse.dropWhile Char.isWhitespace).reverse

/-- `ApplyPatch::description`: the formatted text, trimmed. -/
def applyPatchDescription : List Char := trimChars applyPatchDescriptionRaw.data

/-! ### Helper lemmas for the patch engine -/

/-- A block whose non-empty search string does not occur leaves the content
untouched: the source hits the `None` arm of `find` and neither branch of
the loop body runs. -/
theorem applyBlock_noop (content : List Char) (b : PatchBlock)
    (hne : b.search ≠ []) (hocc : occursIn b.search content = false) :
    applyBlock content b = content := by
  have hfind : findSub content b.search = none := by
    unfold occursIn at hocc
    exact Option.not_isSome_iff_eq_none.mp (by simp [hocc])
  unfold applyBlock
  have : b.search.isEmpty = false := by
    cases hs : b.search with
    | nil => exact absurd hs hne
    | cons c cs => simp [hs, List.isEmpty]
  rw [this, hfind]
  simp

/-- Folding blocks that are all non-matching no-ops over a content is the
identity. -/
theorem foldl_applyBlock_noop (content : List Char) (blocks : List PatchBlock)
    (h : ∀ b ∈ blocks, b.search ≠ [] ∧ occursIn b.search content = false) :
    blocks.foldl applyBlock content = content := by
  induction blocks with
  | nil => rfl
  | cons b rest ih =>
      have hb := h b (List.mem_cons_self b rest)
      have hstep : applyBlock content b = content :=
        applyBlock_noop content b hb.1 hb.2
      simp only [List.foldl_cons, hstep]
      exact ih (fun b' hb' => h b' (List.mem_cons_of_mem b hb'))

/-! ### Helper lemmas for the attachment pipeline -/

/-- Collecting into the attachment set only rearranges membership. -/
theorem mem_foldl_insertAtt (l init : List Attachment) (a : Attachment)
    (h : a ∈ l.foldl insertAtt init) : a ∈ init ∨ a ∈ l := by
  induction l generalizing init with
  | nil => exact Or.inl h
  | cons x xs ih =>
      simp only [List.foldl_cons] at h
      rcases ih (insertAtt init x) h with h' | h'
      · unfold insertAtt at h'
        by_cases hx : x ∈ init
        · rw [if_pos hx] at h'
          exact Or.inl h'
        · rw [if_neg hx] at h'
          rcases List.mem_append.mp h' with h'' | h''
          · exact Or.inl h''
          · simp only [List.mem_singleton] at h''
            subst h''
            exact Or.inr (List.mem_cons_self _ _)
      · exact Or.inr (List.mem_cons_of_mem _ h')

/-- A populated attachment records the path it was read from, and that
path was readable. -/
theorem populate_path (fs : FileRead) (w : List Char) (a : Attachment)
    (h : populate_attachments fs w = some a) :
    a.path = w ∧ (fs w).isSome = true := by
  unfold populate_attachments at h
  cases hw : fs w with
  | none => rw [hw] at h; cases h
  | some r =>
      rw [hw] at h
      cases hb : (extensionOf w).bind ImageType.fromStr with
      | none => rw [hb] at h; cases h; exact ⟨rfl, rfl⟩
      | some t => rw [hb] at h; cases h; exact ⟨rfl, rfl⟩

/-- An unreadable path populates no attachment. -/
theorem populate_none (fs : FileRead) (w : List Char) (hw : fs w = none) :
    populate_attachments fs w = none := by
  unfold populate_attachments
  rw [hw]

/-- A readable path whose extension is not an image type populates a text
attachment carrying the content verbatim. -/
theorem populate_text (fs : FileRead) (w c : List Char) (hw : fs w = some c)
    (hext : (extensionOf w).bind ImageType.fromStr = none) :
    populate_attachments fs w = some ⟨c, w, ContentType.text⟩ := by
  unfold populate_attachments
  rw [hw, hext]

/-- Unreadable paths are silently dropped: populating a word list is the
same as populating its readable sub-list. -/
theorem filterMap_populate_filter (fs : FileRead) (ws : List (List Char)) :
    ws.filterMap (populate_attachments fs)
      = (ws.filter (fun w => (fs w).isSome)).filterMap
          (populate_attachments fs) := by
  induction ws with
  | nil => rfl
  | cons w rest ih =>
      cases hw : fs w with
      | none =>
          have hp := populate_none fs w hw
          simp [List.filterMap_cons, List.filter_cons, hw, hp, ih]
      | some r =>
          cases hp : populate_attachments fs w with
          | none =>
              exfalso
              unfold populate_attachments at hp
              rw [hw] at hp
              revert hp
              cases (extensionOf w).bind ImageType.fromStr <;> simp
          | some a =>
              simp [List.filterMap_cons, List.filter_cons, hw, hp, ih]

/-! ## Claim theorems -/

/-- C1.  The claim states that a non-empty search string occurring in the
content is always replaced by the block's replacement, giving
`prefix ++ replace ++ suffix` (deletion when the replacement is empty).
The code violates this whenever the first occurrence extends to the end of
the content: `get_utf8_safe_indices` looks the end offset up in
`char_indices`, which never yields the end-of-string offset, so the block
silently becomes a no-op even though the end of the string is a valid
UTF-8 boundary.  Evaluated here at content `"ab"` with block
`{search: "b", replace: "c"}` (claimed result `"ac"`) and at the deletion
block `{search: "b", replace: ""}` (claimed result `"a"`). -/
theorem patch_suffix_match_dropped_eval :
    apply_patches "ab".data [PatchBlock.mk "b".data "c".data]
      = .ok "ab".data
    ∧ occursIn "b".data "ab".data = true
    ∧ apply_patches "ab".data [PatchBlock.mk "b".data []] = .ok "ab".data
    ∧ "ab".data ≠ "a".data ++ "c".data
    ∧ "ab".data ≠ "a".data := by
  decide

/-- C3.  A block with an empty search string appends its replacement at
the end of the content: the result is exactly `S ++ replace`. -/
theorem empty_search_appends (S : List Char) (B : PatchBlock)
    (h : B.search = []) :
    applyBlock S B = S ++ B.replace
    ∧ apply_patches S [B] = .ok (S ++ B.replace) := by
  have hemp : B.search.isEmpty = true := by rw [h]; rfl
  have hblock : applyBlock S B = S ++ B.replace := by
    unfold applyBlock
    rw [hemp]
    simp
  exact ⟨hblock, by unfold apply_patches; rw [List.foldl_cons, hblock]; rfl⟩

/-- Witness for C3, the spec's empty-search scenario: content `""` plus the
block `{search: "", replace: "New content\n"}` yields `"New content\n"`. -/
theorem empty_search_appends_witness :
    applyBlock [] (PatchBlock.mk [] "New content\n".data)
      = [] ++ "New content\n".data
    ∧ apply_patches [] [PatchBlock.mk [] "New content\n".data]
      = .ok ([] ++ "New content\n".data) :=
  empty_search_appends [] (PatchBlock.mk [] "New content\n".data) rfl

/-- C4.  A block whose non-empty search string does not occur in the
content is a no-op and not an error: the content is unchanged, the
remaining blocks of the same diff are still applied, `apply_patches`
still returns `Ok`, and the fs_patch call on an absolute path to an
existing file succeeds. -/
theorem no_match_is_noop (S : List Char) (B : PatchBlock)
    (rest : List PatchBlock) (hne : B.search ≠ [])
    (hocc : occursIn B.search S = false) :
    applyBlock S B = S
    ∧ apply_patches S (B :: rest) = apply_patches S rest
    ∧ (apply_patches S (B :: rest)).isOk = true
    ∧ ∀ (fs : FileRead) (path : List Char), isAbsolutePath path = true →
        fs path = some S →
        (applyPatchCall fs path (B :: rest)).isOk = true := by
  have hstep := applyBlock_noop S B hne hocc
  refine ⟨hstep, ?_, rfl, ?_⟩
  · unfold apply_patches
    rw [List.foldl_cons, hstep]
  · intro fs path habs hread
    unfold applyPatchCall
    rw [habs, hread]
    simp only [apply_patches]
    rfl

/-- Witness for C4: the block `{search: "zz", replace: "y"}` leaves
`"abc"` unchanged, the following block still fires, and the call on
`/abs/f.txt` succeeds. -/
theorem no_match_is_noop_witness :
    applyBlock "abc".data (PatchBlock.mk "zz".data "y".data) = "abc".data
    ∧ apply_patches "abc".data
        [PatchBlock.mk "zz".data "y".data, PatchBlock.mk "a".data "A".data]
      = apply_patches "abc".data [PatchBlock.mk "a".data "A".data]
    ∧ (apply_patches "abc".data
        [PatchBlock.mk "zz".data "y".data,
         PatchBlock.mk "a".data "A".data]).isOk = true
    ∧ ∀ (fs : FileRead) (path : List Char), isAbsolutePath path = true →
        fs path = some "abc".data →
        (applyPatchCall fs path
          [PatchBlock.mk "zz".data "y".data,
           PatchBlock.mk "a".data "A".data]).isOk = true :=
  no_match_is_noop "abc".data (PatchBlock.mk "zz".data "y".data)
    [PatchBlock.mk "a".data "A".data] (by decide) (by decide)

/-- C5 counterexample.  The claim says re-applying a block list to its own
post-state is the identity; a block with an empty search string appends
its replacement on *every* application: from `""`, the first application
gives `"x"` and the second gives `"xx" ≠ "x"`. -/
theorem second_application_not_identity :
    apply_patches [] [PatchBlock.mk [] "x".data] = .ok "x".data
    ∧ apply_patches "x".data [PatchBlock.mk [] "x".data] = .ok "xx".data
    ∧ "xx".data ≠ "x".data := by
  decide

/-- C5 as amended: re-applying the block list to the post-state leaves it
unchanged provided every block has a non-empty search string that does not
occur in the post-state. -/
theorem second_application_identity (S : List Char)
    (blocks : List PatchBlock)
    (h : ∀ b ∈ blocks, b.search ≠ []
        ∧ occursIn b.search (blocks.foldl applyBlock S) = false) :
    apply_patches (blocks.foldl applyBlock S) blocks
      = .ok (blocks.foldl applyBlock S) := by
  unfold apply_patches
  rw [foldl_applyBlock_noop _ _ h]

/-- Witness for the amended C5: `"ab"` patched by `{search: "a",
replace: "b"}` gives `"bb"`, where the search no longer occurs, so the
second application returns the post-state. -/
theorem second_application_identity_witness :
    apply_patches
        ([PatchBlock.mk "a".data "b".data].foldl applyBlock "ab".data)
        [PatchBlock.mk "a".data "b".data]
      = .ok ([PatchBlock.mk "a".data "b".data].foldl applyBlock "ab".data) :=
  second_application_identity "ab".data [PatchBlock.mk "a".data "b".data]
    (by decide)

/-- C2 counterexample.  The claim says `set_first_system_message` always
either overwrites the leading system message or inserts one at index 0.
When the leading message is not a `ContentMessage` — here an image — the
`if let` pattern of the source fails and nothing happens: the context is
unchanged and, in particular, still has no leading system message. -/
theorem set_first_system_message_image_unchanged :
    set_first_system_message ⟨[ContextMessage.image "u"]⟩ "sys"
      = ⟨[ContextMessage.image "u"]⟩
    ∧ startsWithSystem
        (set_first_system_message ⟨[ContextMessage.image "u"]⟩ "sys").messages
      = false := by
  decide

/-- C2 as amended: when the context is empty or its leading message is a
content message, `set_first_system_message` produces a leading system
message whose content is the given string (overwriting or inserting); when
the leading message is a tool result or an image, the context is returned
unchanged; the call never creates a second leading system message, and the
remaining messages survive (the tail of the result is the old log on
insertion, or the old tail otherwise). -/
theorem set_first_system_message_cases (c : Context) (s : String) :
    ((c.messages.head?.all ContextMessage.isContent) = true →
        leadingSystemContent (set_first_system_message c s).messages
          = some s)
    ∧ ((c.messages.head?.all ContextMessage.isContent) = false →
        set_first_system_message c s = c)
    ∧ (twoLeadingSystem c.messages = false →
        twoLeadingSystem (set_first_system_message c s).messages = false)
    ∧ ((set_first_system_message c s).messages.tail? = some c.messages
        ∨ (set_first_system_message c s).messages.tail = c.messages.tail) := by
  obtain ⟨msgs⟩ := c
  rcases msgs with _ | ⟨m, rest⟩
  · refine ⟨fun _ => ?_, fun hf => ?_, fun _ => ?_, Or.inl ?_⟩
    · simp [set_first_system_message, leadingSystemContent,
        ContextMessage.system]
    · simp [ContextMessage.isContent] at hf
    · simp [set_first_system_message, twoLeadingSystem,
        ContextMessage.system]
    · simp [set_first_system_message, ContextMessage.system]
  · rcases m with cm | r | url
    · by_cases hr : cm.role = Role.system
      · refine ⟨fun _ => ?_, fun hf => ?_, fun h2 => ?_, Or.inr ?_⟩
        · simp [set_first_system_message, hr, leadingSystemContent]
        · simp [ContextMessage.isContent] at hf
        · rcases rest with _ | ⟨m2, rest2⟩
          · simp [set_first_system_message, hr, twoLeadingSystem]
          · rcases m2 with cm2 | r2 | url2
            · simpa [set_first_system_message, hr, twoLeadingSystem]
                using h2
            · simp [set_first_system_message, hr, twoLeadingSystem]
            · simp [set_first_system_message, hr, twoLeadingSystem]
        · simp [set_first_system_message, hr]
      · refine ⟨fun _ => ?_, fun hf => ?_, fun _ => ?_, Or.inl ?_⟩
        · simp [set_first_system_message, hr, leadingSystemContent,
            ContextMessage.system]
        · simp [ContextMessage.isContent] at hf
        · simp [set_first_system_message, hr, twoLeadingSystem,
            ContextMessage.system]
        · simp [set_first_system_message, hr, ContextMessage.system]
    · exact ⟨fun ht => by simp [ContextMessage.isContent] at ht,
        fun _ => rfl, fun h2 => h2, Or.inr rfl⟩
    · exact ⟨fun ht => by simp [ContextMessage.isContent] at ht,
        fun _ => rfl, fun h2 => h2, Or.inr rfl⟩

/-- Witness for the amended C2: a user-led context gets a system message
inserted in front of it; a tool-result-led context is left unchanged; no
second leading system message appears. -/
theorem set_first_system_message_cases_witness :
    leadingSystemContent
        (set_first_system_message
          ⟨[ContextMessage.contentMessage ⟨Role.user, "hi", none⟩]⟩
          "sys").messages
      = some "sys"
    ∧ set_first_system_message ⟨[ContextMessage.toolMessage ⟨"r"⟩]⟩ "sys"
      = ⟨[ContextMessage.toolMessage ⟨"r"⟩]⟩
    ∧ twoLeadingSystem
        (set_first_system_message
          ⟨[ContextMessage.contentMessage ⟨Role.user, "hi", none⟩]⟩
          "sys").messages
      = false :=
  ⟨(set_first_system_message_cases
      ⟨[ContextMessage.contentMessage ⟨Role.user, "hi", none⟩]⟩ "sys").1
      (by decide),
   (set_first_system_message_cases
      ⟨[ContextMessage.toolMessage ⟨"r"⟩]⟩ "sys").2.1 (by decide),
   (set_first_system_message_cases
      ⟨[ContextMessage.contentMessage ⟨Role.user, "hi", none⟩]⟩ "sys").2.2.1
      (by decide)⟩

/-- C6 counterexample.  The claim says every path-bearing tool rejects
non-absolute paths; forge_tool's `FSRead::call` (`read_file`) performs the
read with no absoluteness check (its own input doc even describes the path
as relative to the working directory), so a relative path naming a
readable file succeeds instead of erroring. -/
theorem fs_read_accepts_relative_path :
    isAbsolutePath "relative/path.txt".data = false
    ∧ fsReadCall
        (fun p => if p = "relative/path.txt".data then some "hi".data
          else none)
        "relative/path.txt".data
      = .ok "hi".data := by
  decide

/-- C6 as amended: the fs_patch tool rejects every non-absolute path
before touching the filesystem (forge_tool's `read_file` does not
validate absoluteness). -/
theorem patch_rejects_relative_path (fs : FileRead) (path : List Char)
    (blocks : List PatchBlock) (h : isAbsolutePath path = false) :
    applyPatchCall fs path blocks = .error ToolError.pathNotAbsolute := by
  unfold applyPatchCall
  rw [h]
  simp

/-- Witness for the amended C6, mirroring the source's
`test_patch_relative_path`. -/
theorem patch_rejects_relative_path_witness :
    applyPatchCall (fun _ => none) "relative/path.txt".data []
      = .error ToolError.pathNotAbsolute :=
  patch_rejects_relative_path (fun _ => none) "relative/path.txt".data []
    (by decide)

/-- C7.  A chat message whose single `@`-word names a readable file that
is not an image is returned with `<file path="…">…</file>` appended and an
empty attachment set; more generally, when every referenced word is
non-image, no text attachment survives in the returned set. -/
theorem text_attachment_inlined (fs : FileRead) (chat : List Char) :
    (∀ p c, wordsOf chat = [p] → fs p = some c →
        (extensionOf p).bind ImageType.fromStr = none →
        attachments fs chat = .ok (chat ++ fileXml p c, []))
    ∧ ((∀ p ∈ wordsOf chat,
          (extensionOf p).bind ImageType.fromStr = none) →
        (attachmentsWith fs chat (wordsOf chat)).2 = []) := by
  constructor
  · intro p c h1 h2 h3
    have hpop := populate_text fs p c h2 h3
    unfold attachments attachmentsWith
    rw [h1]
    simp [prepare_attachments, hpop, insertAtt, prepare_message,
      ContentType.isText]
  · intro hall
    have key : ∀ a ∈ prepare_attachments fs (wordsOf chat),
        a.content_type.isText = true := by
      intro a ha
      unfold prepare_attachments at ha
      rcases mem_foldl_insertAtt _ _ _ ha with h0 | h0
      · cases h0
      · obtain ⟨w, hw, hwa⟩ := List.mem_filterMap.mp h0
        have hnone := hall w hw
        unfold populate_attachments at hwa
        cases hfsw : fs w with
        | none => rw [hfsw] at hwa; cases hwa
        | some r =>
            rw [hfsw, hnone] at hwa
            cases hwa
            rfl
    unfold attachmentsWith prepare_message
    exact List.filter_eq_nil_iff.mpr (fun a ha => by simp [key a ha])

/-- Witness for C7, the spec's text-inlining scenario: message
`Check this file @/abs/a.txt please` with `/abs/a.txt` holding `hello`. -/
theorem text_attachment_inlined_witness :
    attachments
        (fun p => if p = "/abs/a.txt".data then some "hello".data else none)
        "Check this file @/abs/a.txt please".data
      = .ok ("Check this file @/abs/a.txt please".data
            ++ fileXml "/abs/a.txt".data "hello".data, [])
    ∧ (attachmentsWith
        (fun p => if p = "/abs/a.txt".data then some "hello".data else none)
        "Check this file @/abs/a.txt please".data
        (wordsOf "Check this file @/abs/a.txt please".data)).2 = [] :=
  ⟨(text_attachment_inlined
      (fun p => if p = "/abs/a.txt".data then some "hello".data else none)
      "Check this file @/abs/a.txt please".data).1
      "/abs/a.txt".data "hello".data (by decide) (by decide) (by decide),
   (text_attachment_inlined
      (fun p => if p = "/abs/a.txt".data then some "hello".data else none)
      "Check this file @/abs/a.txt please".data).2 (by decide)⟩

/-- C8.  A chat message whose single `@`-word names a readable file with
an image extension is returned verbatim, with exactly one image attachment
whose content is the standard base64 of the file bytes and whose image
type is the one parsed from the extension. -/
theorem image_attachment_passthrough (fs : FileRead)
    (chat p c e : List Char) (t : ImageType)
    (h1 : wordsOf chat = [p]) (h2 : fs p = some c)
    (h3 : extensionOf p = some e) (h4 : ImageType.fromStr e = some t) :
    attachments fs chat
      = .ok (chat,
          [⟨base64Encode (strBytes c), p, ContentType.image t⟩]) := by
  have hpop : populate_attachments fs p
      = some ⟨base64Encode (strBytes c), p, ContentType.image t⟩ := by
    unfold populate_attachments
    rw [h2, h3]
    simp [h4]
  unfold attachments attachmentsWith
  rw [h1]
  simp [prepare_attachments, hpop, insertAtt, prepare_message,
    ContentType.isText]

/-- Witness for C8, the spec's image scenario: `Look @/abs/i.png` with
file bytes `X`. -/
theorem image_attachment_passthrough_witness :
    attachments
        (fun p => if p = "/abs/i.png".data then some "X".data else none)
        "Look @/abs/i.png".data
      = .ok ("Look @/abs/i.png".data,
          [⟨base64Encode (strBytes "X".data), "/abs/i.png".data,
            ContentType.image ImageType.png⟩]) :=
  image_attachment_passthrough
    (fun p => if p = "/abs/i.png".data then some "X".data else none)
    "Look @/abs/i.png".data "/abs/i.png".data "X".data "png".data
    ImageType.png (by decide) (by decide) (by decide) (by decide)

set_option maxRecDepth 8000 in
/-- The one registered-tool description whose source is available, that of
fs_patch (`ApplyPatch::description`), is 825 characters long and fits the
spec's 1024-character bound.  `tools(env)` itself (tools/mod.rs) performs
no length check, and the other nine registered tools' description sources
are not available, so this settles the bound for fs_patch only. -/
theorem applyPatchDescription_length_le :
    applyPatchDescription.length ≤ 1024 := by
  decide

/-- C10.  `attachments` is total over referenced files: an `@`-word whose
path cannot be read is silently dropped — the result is the one computed
from the readable words alone (no error, no inlined block, no set entry),
and every attachment in the returned set names a readable path. -/
theorem unreadable_paths_dropped (fs : FileRead) (chat : List Char) :
    attachments fs chat
      = .ok (attachmentsWith fs chat
          ((wordsOf chat).filter (fun w => (fs w).isSome)))
    ∧ (attachmentsWith fs chat (wordsOf chat)).2.all
        (fun a => (fs a.path).isSome) = true := by
  constructor
  · unfold attachments attachmentsWith prepare_attachments
    rw [filterMap_populate_filter]
  · apply List.all_eq_true.mpr
    intro a ha
    unfold attachmentsWith prepare_message at ha
    have ha' : a ∈ prepare_attachments fs (wordsOf chat) :=
      List.mem_of_mem_filter ha
    unfold prepare_attachments at ha'
    rcases mem_foldl_insertAtt _ _ _ ha' with h0 | h0
    · cases h0
    · obtain ⟨w, hw, hwa⟩ := List.mem_filterMap.mp h0
      obtain ⟨hpath, hsome⟩ := populate_path fs w a hwa
      rw [hpath]
      exact hsome

end Forge
